import Mathlib

set_option maxRecDepth 16384

/-!
Shallow embedding of the `OptimizedGeminiAIService` k6 helper
(`src/ai/optimized-gemini-service.js`), of the aggregate computation in
`runOptimizedAIAnalysis` (the optimized AI scenario script) and of
`PerformanceMonitor` (`src/utils/performance-monitor.js`).

Modelling conventions:
* JavaScript numbers are modelled as exact rationals (`ℚ`); every value the
  embedded code manipulates is an integer or a short decimal, far below the
  range where IEEE-754 doubles lose exactness.  `NaN` is modelled explicitly
  where it can arise (division with zero denominator) as `Option ℚ = none`.
* `Date.now()` is an explicit `now : ℤ` argument of each operation.
* The HTTP transport (`http.post`) plus the envelope parse
  (`JSON.parse(response.body)` followed by the `candidates[0]...text`
  projection) is an oracle argument `ApiOutcome`: the transport either throws,
  or yields a status together with the extracted candidate text (`none` when
  the envelope parse / projection throws).
* `JSON.parse` on the model-produced text is a real executable JSON parser
  (`jsParse`) over a grammar covering everything the service ever feeds it.
* JS string operations (`split(' ')`, `includes`, `.match(/\x7b[\s\S]*\x7d/)`)
  are implemented over `List Char`.
-/

namespace K6AI

/-! ## JSON values

`num` keeps the numeric lexeme as written: no embedded code path inspects the
numeric value of a parsed JSON number, only structure and string fields. -/

inductive Json where
  | str (s : String) : Json
  | num (raw : String) : Json
  | arr (elems : List Json) : Json
  | obj (fields : List (String × Json)) : Json
deriving BEq, Repr

mutual
def Json.deq : (a b : Json) → Decidable (a = b)
  | .str a, .str b =>
    match String.decEq a b with
    | isTrue h => isTrue (by rw [h])
    | isFalse h => isFalse (by intro hh; cases hh; exact h rfl)
  | .str _, .num _ => isFalse (by intro h; cases h)
  | .str _, .arr _ => isFalse (by intro h; cases h)
  | .str _, .obj _ => isFalse (by intro h; cases h)
  | .num a, .num b =>
    match String.decEq a b with
    | isTrue h => isTrue (by rw [h])
    | isFalse h => isFalse (by intro hh; cases hh; exact h rfl)
  | .num _, .str _ => isFalse (by intro h; cases h)
  | .num _, .arr _ => isFalse (by intro h; cases h)
  | .num _, .obj _ => isFalse (by intro h; cases h)
  | .arr a, .arr b =>
    match Json.deqList a b with
    | isTrue h => isTrue (by rw [h])
    | isFalse h => isFalse (by intro hh; cases hh; exact h rfl)
  | .arr _, .str _ => isFalse (by intro h; cases h)
  | .arr _, .num _ => isFalse (by intro h; cases h)
  | .arr _, .obj _ => isFalse (by intro h; cases h)
  | .obj a, .obj b =>
    match Json.deqFields a b with
    | isTrue h => isTrue (by rw [h])
    | isFalse h => isFalse (by intro hh; cases hh; exact h rfl)
  | .obj _, .str _ => isFalse (by intro h; cases h)
  | .obj _, .num _ => isFalse (by intro h; cases h)
  | .obj _, .arr _ => isFalse (by intro h; cases h)

def Json.deqList : (a b : List Json) → Decidable (a = b)
  | [], [] => isTrue rfl
  | [], _ :: _ => isFalse (by intro h; cases h)
  | _ :: _, [] => isFalse (by intro h; cases h)
  | a :: as, b :: bs =>
    match Json.deq a b, Json.deqList as bs with
    | isTrue h1, isTrue h2 => isTrue (by rw [h1, h2])
    | isFalse h1, _ => isFalse (by intro hh; cases hh; exact h1 rfl)
    | _, isFalse h2 => isFalse (by intro hh; cases hh; exact h2 rfl)

def Json.deqFields : (a b : List (String × Json)) → Decidable (a = b)
  | [], [] => isTrue rfl
  | [], _ :: _ => isFalse (by intro h; cases h)
  | _ :: _, [] => isFalse (by intro h; cases h)
  | (k1, v1) :: as, (k2, v2) :: bs =>
    match String.decEq k1 k2, Json.deq v1 v2, Json.deqFields as bs with
    | isTrue hk, isTrue h1, isTrue h2 => isTrue (by rw [hk, h1, h2])
    | isFalse hk, _, _ => isFalse (by intro hh; cases hh; exact hk rfl)
    | _, isFalse h1, _ => isFalse (by intro hh; cases hh; exact h1 rfl)
    | _, _, isFalse h2 => isFalse (by intro hh; cases hh; exact h2 rfl)
end

instance : DecidableEq Json := Json.deq

/-- Field lookup on a JSON object (first binding wins, as in a parsed JS
object literal without duplicate keys). -/
def Json.getField : Json → String → Option Json
  | .obj fields, k => (fields.find? (fun p => p.1 = k)).map Prod.snd
  | _, _ => none

/-- Does the JSON value have an object field with this key? -/
def Json.hasField (j : Json) (k : String) : Bool :=
  (j.getField k).isSome

/-- View a JSON value as an array of strings, if it is one. -/
def Json.asStrList : Json → Option (List String)
  | .arr elems => elems.mapM (fun e => match e with | .str s => some s | _ => none)
  | _ => none

/-! ## JS string primitives over `List Char` -/

/-- JS `s.split(c)` for a single-character separator: keeps empty pieces,
`""` splits to `[""]`. -/
def splitOnChar (c : Char) : List Char → List (List Char)
  | [] => [[]]
  | x :: xs =>
    let rest := splitOnChar c xs
    if x = c then [] :: rest
    else match rest with
      | [] => [[x]]
      | w :: ws => (x :: w) :: ws

def startsWithL : List Char → List Char → Bool
  | [], _ => true
  | _ :: _, [] => false
  | p :: ps, c :: cs => p = c && startsWithL ps cs

/-- JS `s.includes(pat)` (substring containment). -/
def containsL (pat : List Char) : List Char → Bool
  | [] => pat.isEmpty
  | c :: cs => startsWithL pat (c :: cs) || containsL pat cs

/-- JS `s.includes(pat)` lifted to `String`. -/
def jsIncludes (s pat : String) : Bool :=
  containsL pat.data s.data

/-- JS `prompt.split(' ')`. -/
def jsSplitSpace (s : String) : List String :=
  (splitOnChar ' ' s.data).map String.mk

/-! ## JS number rendering

JS renders a number as its shortest decimal representation; every number the
embedded code interpolates into a string is an integer or a short terminating
decimal, on which this rendering is exact.  Rationals with no terminating
decimal expansion of at most 12 digits never reach this function; for totality
they render as a fraction. -/

def padDigits (k : ℕ) (s : String) : String :=
  String.mk (List.replicate (k - s.length) '0') ++ s

def jsNumStr (q : ℚ) : String :=
  if q.den = 1 then toString q.num
  else
    match (List.range 13).find? (fun k => (q * (10 : ℚ) ^ k).den = 1) with
    | some k =>
      let sign := if q < 0 then "-" else ""
      let scaled := ((|q| * (10 : ℚ) ^ k).num).toNat
      sign ++ toString (scaled / 10 ^ k) ++ "." ++ padDigits k (toString (scaled % 10 ^ k))
    | none => toString q.num ++ "/" ++ toString q.den

/-- JS `x / y` on nonnegative operands as they occur in the embedded code:
`0 / 0` is `NaN`, modelled as `none`. -/
def jsDiv (a b : ℚ) : Option ℚ :=
  if b = 0 then none else some (a / b)

/-- JS `Math.round`: round half up. -/
def jsRound (q : ℚ) : ℤ :=
  ⌊q + 1 / 2⌋

/-- JS `x || d` for a possibly-absent number: `undefined` and `0` are falsy. -/
def jsOrNum (x : Option ℚ) (d : ℚ) : ℚ :=
  match x with
  | none => d
  | some v => if v = 0 then d else v

/-- JS `x || d` for a possibly-absent string: `undefined` and `""` are falsy. -/
def jsOrStr (x : Option String) (d : String) : String :=
  match x with
  | none => d
  | some v => if v = "" then d else v

/-! ## `JSON.parse`

A fuel-indexed recursive-descent parser.  It covers strings without escape
sequences, numbers, arrays and objects — everything the embedded service ever
feeds to `JSON.parse` after the transport envelope has been stripped (the
fallback strings it parses contain no escapes, `null`, booleans or exotic
numbers).  Inputs outside this grammar are rejected (`none`), matching the
`JSON.parse`-throws path of the code for the inputs that occur. -/

def isWsChar (c : Char) : Bool :=
  c = ' ' || c = '\n' || c = '\t' || c = '\r'

def skipWs : List Char → List Char
  | [] => []
  | c :: cs => if isWsChar c then skipWs cs else c :: cs

/-- Body of a string literal, after the opening quote: plain characters up to
the closing quote; escape sequences are out of the supported grammar. -/
def parseStrBody : List Char → Option (List Char × List Char)
  | [] => none
  | c :: cs =>
    if c = '"' then some ([], cs)
    else if c = '\\' then none
    else (parseStrBody cs).map (fun p => (c :: p.1, p.2))

/-- A numeric lexeme (digits, sign, decimal point, exponent characters). -/
def isNumChar (c : Char) : Bool :=
  c.isDigit || c = '-' || c = '+' || c = '.' || c = 'e' || c = 'E'

def parseNum (cs : List Char) : Option (Json × List Char) :=
  let lex := cs.takeWhile isNumChar
  if lex.isEmpty then none
  else some (Json.num (String.mk lex), cs.dropWhile isNumChar)

mutual
def parseVal (fuel : ℕ) (cs : List Char) : Option (Json × List Char) :=
  match fuel with
  | 0 => none
  | fuel + 1 =>
    match skipWs cs with
    | [] => none
    | c :: rest =>
      if c = '"' then (parseStrBody rest).map (fun p => (Json.str (String.mk p.1), p.2))
      else if c = '\x7b' then parseObj fuel (skipWs rest)
      else if c = '[' then parseArr fuel (skipWs rest)
      else if c.isDigit || c = '-' then parseNum (c :: rest)
      else none

/-- Array tail, after `[` (whitespace skipped). -/
def parseArr (fuel : ℕ) (cs : List Char) : Option (Json × List Char) :=
  match fuel with
  | 0 => none
  | fuel + 1 =>
    match cs with
    | ']' :: rest => some (Json.arr [], rest)
    | _ => (parseElems fuel cs).map (fun p => (Json.arr p.1, p.2))

/-- One or more comma-separated values, up to and including `]`. -/
def parseElems (fuel : ℕ) (cs : List Char) : Option (List Json × List Char) :=
  match fuel with
  | 0 => none
  | fuel + 1 =>
    match parseVal fuel cs with
    | none => none
    | some (v, rest) =>
      match skipWs rest with
      | ',' :: rest2 => (parseElems fuel rest2).map (fun p => (v :: p.1, p.2))
      | ']' :: rest2 => some ([v], rest2)
      | _ => none

/-- Object tail, after `\x7b` (whitespace skipped). -/
def parseObj (fuel : ℕ) (cs : List Char) : Option (Json × List Char) :=
  match fuel with
  | 0 => none
  | fuel + 1 =>
    match cs with
    | '\x7d' :: rest => some (Json.obj [], rest)
    | _ => (parseMembers fuel cs).map (fun p => (Json.obj p.1, p.2))

/-- One or more `"key": value` members, up to and including `\x7d`. -/
def parseMembers (fuel : ℕ) (cs : List Char) :
    Option (List (String × Json) × List Char) :=
  match fuel with
  | 0 => none
  | fuel + 1 =>
    match skipWs cs with
    | '"' :: rest =>
      match parseStrBody rest with
      | none => none
      | some (key, rest2) =>
        match skipWs rest2 with
        | ':' :: rest3 =>
          match parseVal fuel rest3 with
          | none => none
          | some (v, rest4) =>
            match skipWs rest4 with
            | ',' :: rest5 =>
              (parseMembers fuel rest5).map
                (fun p => ((String.mk key, v) :: p.1, p.2))
            | '\x7d' :: rest5 => some ([(String.mk key, v)], rest5)
            | _ => none
        | _ => none
    | _ => none
end

/-- JS `JSON.parse(s)` (returning `none` where it throws): a full parse of the
input, rejecting trailing garbage. -/
def jsParse (s : String) : Option Json :=
  match parseVal (s.data.length + 2) s.data with
  | some (j, rest) => if (skipWs rest).isEmpty then some j else none
  | none => none

/-! ## The regex `response.match(/\x7b[\s\S]*\x7d/)`

The pattern matches (leftmost, greedy) iff the string has an opening brace
with a closing brace strictly after it; the match then runs from the first
opening brace to the last closing brace. -/

def jsonMatch (s : String) : Option String :=
  let cs := s.data
  match cs.findIdx? (fun c => c = '\x7b'), cs.reverse.findIdx? (fun c => c = '\x7d') with
  | some i, some rj =>
    let j := cs.length - 1 - rj
    if i < j then some (String.mk ((cs.drop i).take (j - i + 1))) else none
  | _, _ => none

/-! ## The service state (`OptimizedGeminiAIService`) -/

/-- A value stored in `this.cache`: the prompt-keyed entries hold the raw
response text (a string), the `combined_`-keyed entries hold the parsed
analysis object. -/
inductive CachedVal where
  | str (s : String) : CachedVal
  | obj (j : Json) : CachedVal
deriving DecidableEq, Repr

structure CacheEntry where
  result : CachedVal
  timestamp : ℤ
  ttl : ℤ
deriving DecidableEq, Repr

/-- The instance fields of `OptimizedGeminiAIService`.  `httpCalls` is ghost
instrumentation counting invocations of `http.post`; it is not a field of the
JS object. -/
structure ServiceState where
  apiKey : String
  model : String
  baseUrl : String
  cache : List (String × CacheEntry)
  requestCount : ℕ
  maxRequestsPerTest : ℕ
  cacheHits : ℕ
  cacheMisses : ℕ
  httpCalls : ℕ
deriving DecidableEq, Repr

/-- JS `Map.prototype.get`. -/
def mapGet : List (String × CacheEntry) → String → Option CacheEntry
  | [], _ => none
  | (k0, v) :: rest, k => if k0 = k then some v else mapGet rest k

/-- JS `Map.prototype.set`: replace in place, else append. -/
def mapSet : List (String × CacheEntry) → String → CacheEntry → List (String × CacheEntry)
  | [], k, v => [(k, v)]
  | (k0, v0) :: rest, k, v =>
    if k0 = k then (k, v) :: rest else (k0, v0) :: mapSet rest k v

/-- JS `Map.prototype.delete` (used only to state "behaves as if the entry
were absent" properties). -/
def mapRemove : List (String × CacheEntry) → String → List (String × CacheEntry)
  | [], _ => []
  | (k0, v) :: rest, k =>
    if k0 = k then mapRemove rest k else (k0, v) :: mapRemove rest k

/-- The constructor: fields are initialised, then the key sanity check throws
away the instance when the key is missing (falsy, for a string: empty) or
shorter than 10 characters. -/
def construct (apiKey : String) (model : String) : Except String ServiceState :=
  if apiKey = "" || apiKey.length < 10 then
    Except.error "Invalid Gemini API key provided"
  else
    Except.ok
      { apiKey := apiKey
        model := model
        baseUrl := "https://generativelanguage.googleapis.com/v1"
        cache := []
        requestCount := 0
        maxRequestsPerTest := 3
        cacheHits := 0
        cacheMisses := 0
        httpCalls := 0 }

/-- Model of `getCacheKey(prompt)`: coarse category tag plus the first 10
space-separated words of the prompt joined by underscores. -/
def getCacheKey (prompt : String) : String :=
  let words := String.intercalate "_" ((jsSplitSpace prompt).take 10)
  let type := if jsIncludes prompt "threshold" then "threshold" else "analysis"
  type ++ "_" ++ words

/-- What `JSON.stringify` produces for the object literal inside
`getFallbackResponse` (insertion order, no whitespace). -/
def fallbackThresholdString : String :=
  "\x7b\"thresholds\":\x7b\"http_req_duration\":[\"p(95)<500\",\"p(99)<1000\"],\"http_req_failed\":[\"rate<0.05\"],\"checks\":[\"rate>0.95\"]\x7d,\"reasoning\":\"AI analysis unavailable - using default thresholds\"\x7d"

/-- The same fallback object in parsed form. -/
def fallbackThresholdJson : Json :=
  Json.obj
    [("thresholds",
      Json.obj
        [("http_req_duration", Json.arr [Json.str "p(95)<500", Json.str "p(99)<1000"]),
         ("http_req_failed", Json.arr [Json.str "rate<0.05"]),
         ("checks", Json.arr [Json.str "rate>0.95"])]),
     ("reasoning", Json.str "AI analysis unavailable - using default thresholds")]

/-- Model of `getFallbackResponse(prompt)`. -/
def getFallbackResponse (prompt : String) : String :=
  if jsIncludes prompt "threshold" then fallbackThresholdString
  else "Performance analysis unavailable - review results manually. Check error rates and response times."

/-- Model of `getCachedResponse(prompt)`: serve the entry if present and unexpired,
else count a miss and fall back. -/
def getCachedResponse (s : ServiceState) (now : ℤ) (prompt : String) :
    CachedVal × ServiceState :=
  match mapGet s.cache (getCacheKey prompt) with
  | some cached =>
    if now - cached.timestamp < cached.ttl then
      (cached.result, { s with cacheHits := s.cacheHits + 1 })
    else
      (CachedVal.str (getFallbackResponse prompt), { s with cacheMisses := s.cacheMisses + 1 })
  | none =>
    (CachedVal.str (getFallbackResponse prompt), { s with cacheMisses := s.cacheMisses + 1 })

/-- The transport oracle: one `http.post` round-trip together with the
envelope handling `JSON.parse(response.body)` / `candidates[0]...text`.
`resp status text` is a response; `text = none` means the envelope parse or
projection threw.  `throw` means `http.post` itself threw. -/
inductive ApiOutcome where
  | resp (status : ℤ) (text : Option String) : ApiOutcome
  | throw : ApiOutcome
deriving DecidableEq, Repr

/-- Model of `callGeminiAPI(prompt, maxTokens)`.  `maxTokens` only shapes the outbound
payload, which the transport oracle abstracts, so it is not a parameter here.
All throws inside the method body are caught by its `try`/`catch`;
`requestCount++` runs after `http.post` returns and before the status check. -/
def callGeminiAPI (s : ServiceState) (now : ℤ) (outcome : ApiOutcome)
    (prompt : String) : CachedVal × ServiceState :=
  if s.requestCount ≥ s.maxRequestsPerTest then
    getCachedResponse s now prompt
  else
    match outcome with
    | ApiOutcome.throw =>
      (CachedVal.str (getFallbackResponse prompt), { s with httpCalls := s.httpCalls + 1 })
    | ApiOutcome.resp status text =>
      let s1 := { s with httpCalls := s.httpCalls + 1, requestCount := s.requestCount + 1 }
      if status ≠ 200 then
        (CachedVal.str (getFallbackResponse prompt), s1)
      else
        match text with
        | none => (CachedVal.str (getFallbackResponse prompt), s1)
        | some result =>
          (CachedVal.str result,
           { s1 with
               cache := mapSet s1.cache (getCacheKey prompt)
                 { result := CachedVal.str result, timestamp := now, ttl := 1800000 } })

/-! ## The combined analysis call -/

/-- The `testResults` argument: the fields the service reads, each possibly
absent (`undefined`). -/
structure TestResults where
  responseTime : Option ℚ
  maxResponseTime : Option ℚ
  errorRate : Option ℚ
  throughput : Option ℚ
  status : Option String
deriving DecidableEq, Repr

/-- Template interpolation of `${x || 'N/A'}` for a numeric field. -/
def interpNum (x : Option ℚ) : String :=
  match x with
  | none => "N/A"
  | some v => if v = 0 then "N/A" else jsNumStr v

/-- Template interpolation of `${x || 'N/A'}` for a string field. -/
def interpStr (x : Option String) : String :=
  jsOrStr x "N/A"

/-- What `JSON.stringify(testResults)` produces: insertion order of the
object built in `runOptimizedAIAnalysis`, `undefined` fields omitted. -/
def stringifyTestResults (tr : TestResults) : String :=
  let fields :=
    [tr.responseTime.map (fun q => "\"responseTime\":" ++ jsNumStr q),
     tr.maxResponseTime.map (fun q => "\"maxResponseTime\":" ++ jsNumStr q),
     tr.errorRate.map (fun q => "\"errorRate\":" ++ jsNumStr q),
     tr.throughput.map (fun q => "\"throughput\":" ++ jsNumStr q),
     tr.status.map (fun s => "\"status\":\"" ++ s ++ "\"")]
  "\x7b" ++ String.intercalate "," (fields.filterMap id) ++ "\x7d"

/-- The template literal built inside `analyzePerformanceWithRecommendations`
(verbatim, including its leading newline and indentation). -/
def combinedPrompt (tr : TestResults) : String :=
  "\n    Analyze these k6 performance test results and provide both insights and threshold recommendations:\n\n    Test Results:\n    - Response Time: "
    ++ interpNum tr.responseTime
    ++ "ms\n    - Error Rate: "
    ++ interpNum tr.errorRate
    ++ "%\n    - Throughput: "
    ++ interpNum tr.throughput
    ++ " requests/sec\n    - Status: "
    ++ interpStr tr.status
    ++ "\n\n    Provide:\n    1. Brief performance summary (max 100 words)\n    2. Top 3 actionable recommendations\n    3. Recommended k6 thresholds as JSON\n\n    Format response as JSON:\n    \x7b\n      \"summary\": \"brief summary\",\n      \"recommendations\": [\"item1\", \"item2\", \"item3\"],\n      \"thresholds\": \x7b\n        \"http_req_duration\": [\"p(95)<X\", \"p(99)<Y\"],\n        \"http_req_failed\": [\"rate<Z\"],\n        \"checks\": [\"rate>W\"]\n      \x7d\n    \x7d\n    "

/-- Model of `getFallbackAnalysis(testResults)`. -/
def getFallbackAnalysis (tr : TestResults) : Json :=
  let errorRate := jsOrNum tr.errorRate 0
  let responseTime := jsOrNum tr.responseTime 500
  Json.obj
    [("summary",
      Json.str ("Performance test completed. Response time: " ++ jsNumStr responseTime
        ++ "ms, Error rate: " ++ jsNumStr errorRate ++ "%")),
     ("recommendations",
      Json.arr
        [Json.str "Monitor error rates and investigate failures",
         Json.str "Check response time thresholds",
         Json.str "Review system resources during peak load"]),
     ("thresholds",
      Json.obj
        [("http_req_duration",
          Json.arr
            [Json.str ("p(95)<" ++ jsNumStr (responseTime * 2)),
             Json.str ("p(99)<" ++ jsNumStr (responseTime * 3))]),
         ("http_req_failed",
          Json.arr [Json.str ("rate<" ++ jsNumStr (max (1 / 100 : ℚ) (errorRate * 2)))]),
         ("checks", Json.arr [Json.str "rate>0.95"])])]

/-- What `analyzePerformanceWithRecommendations` does with the value
`callGeminiAPI` handed back: regex-extract and parse the JSON in the reply,
cache a parse success, otherwise degrade to `getFallbackAnalysis`.
`response.match` on a non-string (a cached object) throws, landing in the
same `catch`. -/
def analyzePost (tr : TestResults) (cacheKey : String) (now : ℤ) :
    CachedVal × ServiceState → CachedVal × ServiceState
  | (CachedVal.obj _, s2) => (CachedVal.obj (getFallbackAnalysis tr), s2)
  | (CachedVal.str text, s2) =>
    match jsonMatch text with
    | none => (CachedVal.obj (getFallbackAnalysis tr), s2)
    | some matched =>
      match jsParse matched with
      | none => (CachedVal.obj (getFallbackAnalysis tr), s2)
      | some j =>
        (CachedVal.obj j,
         { s2 with
             cache := mapSet s2.cache cacheKey
               { result := CachedVal.obj j, timestamp := now, ttl := 1800000 } })

/-- The body of `analyzePerformanceWithRecommendations` after the combined
cache check missed: issue the API call, then post-process the reply. -/
def analyzeMiss (s : ServiceState) (now : ℤ) (outcome : ApiOutcome)
    (tr : TestResults) (cacheKey : String) : CachedVal × ServiceState :=
  analyzePost tr cacheKey now (callGeminiAPI s now outcome (combinedPrompt tr))

/-- Model of `analyzePerformanceWithRecommendations(testResults)`. -/
def analyzePerformanceWithRecommendations (s : ServiceState) (now : ℤ)
    (outcome : ApiOutcome) (tr : TestResults) : CachedVal × ServiceState :=
  let cacheKey := "combined_" ++ stringifyTestResults tr
  match mapGet s.cache cacheKey with
  | some cached =>
    if now - cached.timestamp < cached.ttl then
      (cached.result, { s with cacheHits := s.cacheHits + 1 })
    else
      analyzeMiss s now outcome tr cacheKey
  | none => analyzeMiss s now outcome tr cacheKey

/-! ## Stats and counters -/

structure UsageStats where
  totalRequests : ℕ
  cacheHits : ℕ
  cacheMisses : ℕ
  cacheHitRate : Option ℚ
  requestsRemaining : ℤ
deriving DecidableEq, Repr

/-- Model of `getUsageStats()`.  `cacheHitRate` is `hits / (hits + misses) * 100`
computed with JS division: `none` stands for the `NaN` produced by `0 / 0`. -/
def getUsageStats (s : ServiceState) : UsageStats :=
  { totalRequests := s.requestCount
    cacheHits := s.cacheHits
    cacheMisses := s.cacheMisses
    cacheHitRate :=
      (jsDiv (s.cacheHits : ℚ) ((s.cacheHits : ℚ) + (s.cacheMisses : ℚ))).map (fun r => r * 100)
    requestsRemaining := (s.maxRequestsPerTest : ℤ) - (s.requestCount : ℤ) }

/-- Model of `resetCounters()`. -/
def resetCounters (s : ServiceState) : ServiceState :=
  { s with requestCount := 0, cacheHits := 0, cacheMisses := 0 }

/-! ## Operation sequences -/

/-- One externally invokable operation on a service instance. -/
inductive Op where
  | call (now : ℤ) (outcome : ApiOutcome) (prompt : String) : Op
  | analyze (now : ℤ) (outcome : ApiOutcome) (tr : TestResults) : Op
  | stats : Op
  | reset : Op

/-- State transition of one operation (`getUsageStats` is read-only). -/
def step (s : ServiceState) : Op → ServiceState
  | Op.call now outcome prompt => (callGeminiAPI s now outcome prompt).2
  | Op.analyze now outcome tr => (analyzePerformanceWithRecommendations s now outcome tr).2
  | Op.stats => s
  | Op.reset => resetCounters s

/-- Run a sequence of operations. -/
def runOps (s : ServiceState) (ops : List Op) : ServiceState :=
  ops.foldl step s

/-! ## Aggregates computed in `runOptimizedAIAnalysis` (optimized AI scenario) -/

/-- One element of `data.performanceMetrics`. -/
structure AIMetric where
  responseTime : ℚ
  status : ℤ
  endpoint : String
  timestamp : String
deriving DecidableEq, Repr

def metricErrorCount (ms : List AIMetric) : ℕ :=
  (ms.filter (fun m => m.status ≥ 400)).length

/-- The expression `metrics.filter(m => m.status >= 400).length / metrics.length`
(`none` is the `NaN` of `0 / 0` on an empty batch). -/
def aggErrorRate (ms : List AIMetric) : Option ℚ :=
  jsDiv (metricErrorCount ms : ℚ) (ms.length : ℚ)

/-- The expression `responseTimes.reduce((sum, t) => sum + t, 0) / responseTimes.length`. -/
def aggAvgResponseTime (ms : List AIMetric) : Option ℚ :=
  jsDiv ((ms.map (fun m => m.responseTime)).foldl (fun a b => a + b) 0) (ms.length : ℚ)

/-- The expression `Math.max(...responseTimes)` (`none` is the `-Infinity` of an empty
spread). -/
def aggMaxResponseTime (ms : List AIMetric) : Option ℚ :=
  (ms.map (fun m => m.responseTime)).max?

/-- The `testResults` object built in `runOptimizedAIAnalysis`.  The caller
only reaches this with at least 8 samples, so the empty-batch `NaN` cases
(modelled as absent fields — `NaN` and `undefined` are both falsy where these
fields are read) never arise; `NaN > 0.05` is false, giving `HEALTHY`. -/
def aggTestResults (ms : List AIMetric) : TestResults :=
  { responseTime := (aggAvgResponseTime ms).map (fun q => ((jsRound q : ℤ) : ℚ))
    maxResponseTime := (aggMaxResponseTime ms).map (fun q => ((jsRound q : ℤ) : ℚ))
    errorRate := (aggErrorRate ms).map (fun q => ((jsRound (q * 100) : ℤ) : ℚ))
    throughput := some (ms.length : ℚ)
    status := some
      (match aggErrorRate ms with
       | some e => if e > 1 / 20 then "DEGRADED" else "HEALTHY"
       | none => "HEALTHY") }

/-! ## `PerformanceMonitor` (`src/utils/performance-monitor.js`) -/

/-- The fields of a k6 response object that `trackRequest` reads. -/
structure TrackedResponse where
  status : ℤ
  duration : ℚ
  url : String
  method : String
deriving DecidableEq, Repr

/-- The record `trackRequest` pushes (its ISO `timestamp` string and, on
error entries, the `error`/truncated `body` strings are never read by any
embedded computation and are omitted). -/
structure RequestData where
  testName : String
  status : ℤ
  responseTime : ℚ
  totalTime : ℤ
  url : String
  method : String
deriving DecidableEq, Repr

structure MonitorState where
  requests : List RequestData
  errors : List RequestData
  responseTimes : List ℚ
deriving DecidableEq, Repr

/-- The constructor's `this.metrics`. -/
def emptyMonitor : MonitorState :=
  { requests := [], errors := [], responseTimes := [] }

/-- Model of `trackRequest(response, testName, startTime)` at wall time `now`. -/
def trackRequest (m : MonitorState) (resp : TrackedResponse) (testName : String)
    (startTime now : ℤ) : MonitorState :=
  let rd : RequestData :=
    { testName := testName
      status := resp.status
      responseTime := resp.duration
      totalTime := now - startTime
      url := resp.url
      method := resp.method }
  { requests := m.requests ++ [rd]
    responseTimes := m.responseTimes ++ [resp.duration]
    errors := if resp.status ≥ 400 then m.errors ++ [rd] else m.errors }

/-- The `getSummary()` result.  `averageResponseTime`, `minResponseTime` and
`maxResponseTime` are `none` in the non-finite corner (empty
`responseTimes` alongside nonempty `requests`), which no `trackRequest`-built
state reaches. -/
structure MonitorSummary where
  totalRequests : ℕ
  averageResponseTime : Option ℚ
  minResponseTime : Option ℚ
  maxResponseTime : Option ℚ
  errorRate : ℚ
  throughput : ℕ
deriving DecidableEq, Repr

/-- Model of `getSummary()`: zeros for an empty monitor, else locally computed
aggregates; the average and the error percentage are rounded to two decimals
via `Math.round(x * 100) / 100`. -/
def getSummary (m : MonitorState) : MonitorSummary :=
  if m.requests.length = 0 then
    { totalRequests := 0
      averageResponseTime := some 0
      minResponseTime := some 0
      maxResponseTime := some 0
      errorRate := 0
      throughput := 0 }
  else
    let totalRequests := m.requests.length
    let errorCount := m.errors.length
    { totalRequests := totalRequests
      averageResponseTime :=
        (jsDiv (m.responseTimes.foldl (fun a b => a + b) 0) (m.responseTimes.length : ℚ)).map
          (fun a => ((jsRound (a * 100) : ℤ) : ℚ) / 100)
      minResponseTime := m.responseTimes.min?
      maxResponseTime := m.responseTimes.max?
      errorRate := ((jsRound ((errorCount : ℚ) / (totalRequests : ℚ) * 100 * 100) : ℤ) : ℚ) / 100
      throughput := totalRequests }

/-! ## Concrete instances used by witnesses and counterexamples -/

/-- The state a fresh `new OptimizedGeminiAIService('GEMINI-KEY-1234')` has. -/
def s0 : ServiceState :=
  { apiKey := "GEMINI-KEY-1234"
    model := "gemini-pro"
    baseUrl := "https://generativelanguage.googleapis.com/v1"
    cache := []
    requestCount := 0
    maxRequestsPerTest := 3
    cacheHits := 0
    cacheMisses := 0
    httpCalls := 0 }

/-- A fresh instance after exhausting its quota of 3 live calls. -/
def s3 : ServiceState :=
  { s0 with requestCount := 3 }

def promptEx : String :=
  "analyze performance of this test run please"

def entryEx : CacheEntry :=
  { result := CachedVal.str "cached analysis text", timestamp := 0, ttl := 1800000 }

/-- The state `s0` with one prompt-keyed cache entry created at time 0. -/
def sCached : ServiceState :=
  { s0 with cache := [(getCacheKey promptEx, entryEx)] }

/-- The state `sCached` with the quota exhausted. -/
def sCachedQuota : ServiceState :=
  { sCached with requestCount := 3 }

/-- The spec's worked example: samples `[(200ms, 200), (800ms, 500)]`. -/
def metricsEx : List AIMetric :=
  [{ responseTime := 200, status := 200, endpoint := "/posts/1", timestamp := "t0" },
   { responseTime := 800, status := 500, endpoint := "/posts/2", timestamp := "t1" }]

/-- The `testResults` those samples produce: avg 500ms, error rate 50%. -/
def trDeg : TestResults :=
  { responseTime := some 500
    maxResponseTime := some 800
    errorRate := some 50
    throughput := some 2
    status := some "DEGRADED" }

/-- Three tracked responses, one of them a 500. -/
def monEx : MonitorState :=
  trackRequest
    (trackRequest
      (trackRequest emptyMonitor
        { status := 500, duration := 120, url := "u1", method := "GET" } "rest-api" 0 10)
      { status := 200, duration := 80, url := "u2", method := "GET" } "rest-api" 10 20)
    { status := 200, duration := 100, url := "u3", method := "GET" } "rest-api" 20 30

/-- Compose the field lookups for the `http_req_duration` threshold list. -/
def durThresholds (j : Json) : Option (List String) :=
  ((j.getField "thresholds").bind (fun t => t.getField "http_req_duration")).bind
    Json.asStrList

/-- Five live-call attempts in a row (two more than the quota allows). -/
def opsEx : List Op :=
  [Op.call 0 (ApiOutcome.resp 200 (some "analysis one")) "first prompt",
   Op.call 1 (ApiOutcome.resp 200 (some "analysis two")) "second prompt",
   Op.call 2 (ApiOutcome.resp 500 none) "third prompt",
   Op.call 3 (ApiOutcome.resp 200 (some "analysis four")) "fourth prompt",
   Op.call 4 ApiOutcome.throw "fifth prompt"]

/-! ## Basic lemmas -/

theorem startsWithL_append (pat xs ys : List Char) (h : startsWithL pat xs = true) :
    startsWithL pat (xs ++ ys) = true := by
  induction pat generalizing xs with
  | nil => simp [startsWithL]
  | cons p ps ih =>
    cases xs with
    | nil => simp [startsWithL] at h
    | cons c cs =>
      simp only [startsWithL, Bool.and_eq_true] at h
      simp only [List.cons_append, startsWithL, Bool.and_eq_true]
      exact ⟨h.1, ih cs h.2⟩

theorem containsL_append_left (pat xs ys : List Char) (h : containsL pat xs = true) :
    containsL pat (xs ++ ys) = true := by
  induction xs with
  | nil =>
    simp only [containsL, List.isEmpty_iff] at h
    subst h
    cases ys with
    | nil => simp [containsL]
    | cons c cs => simp [containsL, startsWithL]
  | cons c cs ih =>
    simp only [containsL, Bool.or_eq_true] at h
    simp only [List.cons_append, containsL, Bool.or_eq_true]
    rcases h with h | h
    · exact Or.inl (startsWithL_append pat (c :: cs) ys h)
    · exact Or.inr (ih h)

/-- The word `threshold` occurs in the fixed head of the combined prompt,
before any interpolated value. -/
theorem combinedPrompt_contains_threshold (tr : TestResults) :
    jsIncludes (combinedPrompt tr) "threshold" = true := by
  unfold jsIncludes combinedPrompt
  simp only [String.data_append, List.append_assoc]
  exact containsL_append_left _ _ _ (by decide)

theorem getFallbackResponse_combined (tr : TestResults) :
    getFallbackResponse (combinedPrompt tr) = fallbackThresholdString := by
  simp [getFallbackResponse, combinedPrompt_contains_threshold]

theorem jsonMatch_fallbackString :
    jsonMatch fallbackThresholdString = some fallbackThresholdString := by
  decide

theorem jsParse_fallbackString :
    jsParse fallbackThresholdString = some fallbackThresholdJson := by
  decide

/-- The prompt-derived cache key of the combined prompt starts with `t`. -/
theorem getCacheKey_combined_head (tr : TestResults) :
    (getCacheKey (combinedPrompt tr)).data.head? = some 't' := by
  simp [getCacheKey, combinedPrompt_contains_threshold, String.data_append]

/-- The combined cache key and the prompt-derived cache key of the combined
prompt are distinct (their first characters differ). -/
theorem combined_key_ne_prompt_key (tr : TestResults) (rest : String) :
    getCacheKey (combinedPrompt tr) ≠ "combined_" ++ rest := by
  intro h
  have hh := getCacheKey_combined_head tr
  rw [h] at hh
  simp [String.data_append] at hh

theorem mapGet_mapRemove_self (m : List (String × CacheEntry)) (k : String) :
    mapGet (mapRemove m k) k = none := by
  induction m with
  | nil => rfl
  | cons p rest ih =>
    rcases p with ⟨k0, v0⟩
    by_cases h : k0 = k
    · simpa [mapRemove, h] using ih
    · simpa [mapRemove, mapGet, h] using ih

theorem mapGet_mapRemove_ne (m : List (String × CacheEntry)) (k k2 : String)
    (h : k2 ≠ k) : mapGet (mapRemove m k) k2 = mapGet m k2 := by
  induction m with
  | nil => rfl
  | cons p rest ih =>
    rcases p with ⟨k0, v0⟩
    by_cases hp : k0 = k
    · subst hp
      have hk2 : ¬ k0 = k2 := fun hh => h (hh.symm.trans rfl)
      simp [mapRemove, mapGet, hk2, ih]
    · by_cases hk2 : k0 = k2
      · subst hk2
        simp [mapRemove, mapGet, hp]
      · simp [mapRemove, mapGet, hp, hk2, ih]

/-- The call `getCachedResponse` leaves every field except the hit/miss counters
unchanged. -/
theorem getCachedResponse_frame (s : ServiceState) (now : ℤ) (prompt : String) :
    (getCachedResponse s now prompt).2.requestCount = s.requestCount ∧
    (getCachedResponse s now prompt).2.maxRequestsPerTest = s.maxRequestsPerTest ∧
    (getCachedResponse s now prompt).2.httpCalls = s.httpCalls ∧
    (getCachedResponse s now prompt).2.cache = s.cache := by
  unfold getCachedResponse
  cases h : mapGet s.cache (getCacheKey prompt) with
  | none => simp
  | some e =>
    by_cases hf : now - e.timestamp < e.ttl <;> simp [hf]

/-- The value `callGeminiAPI` returns depends on the cache only through the
entry at the prompt's key. -/
theorem callGeminiAPI_fst_of_cache (s : ServiceState)
    (c2 : List (String × CacheEntry)) (now : ℤ) (outcome : ApiOutcome) (p : String)
    (hc : mapGet c2 (getCacheKey p) = mapGet s.cache (getCacheKey p)) :
    (callGeminiAPI { s with cache := c2 } now outcome p).1
      = (callGeminiAPI s now outcome p).1 := by
  unfold callGeminiAPI
  by_cases hq : s.requestCount ≥ s.maxRequestsPerTest
  · simp only [hq, if_true, ge_iff_le]
    unfold getCachedResponse
    simp only
    rw [hc]
    cases mapGet s.cache (getCacheKey p) with
    | none => rfl
    | some e => by_cases hf : now - e.timestamp < e.ttl <;> simp [hf]
  · simp only [hq, if_false, ge_iff_le]
    cases outcome with
    | throw => rfl
    | resp status text =>
      by_cases hs : status ≠ 200
      · simp [hs]
      · simp only [hs, if_false]
        cases text <;> rfl

/-- The value component of `analyzePost` depends only on the value component
of its input. -/
theorem analyzePost_fst_congr (tr : TestResults) (ck : String) (now : ℤ)
    (r1 r2 : CachedVal × ServiceState) (h : r1.1 = r2.1) :
    (analyzePost tr ck now r1).1 = (analyzePost tr ck now r2).1 := by
  rcases r1 with ⟨v1, t1⟩
  rcases r2 with ⟨v2, t2⟩
  simp only at h
  subst h
  cases v1 with
  | obj j => rfl
  | str text =>
    simp only [analyzePost]
    cases hjm : jsonMatch text with
    | none => simp [hjm]
    | some matched =>
      simp only [hjm]
      cases hp : jsParse matched <;> simp [hp]

/-- The function `analyzePost` never touches the counters of the state it is given. -/
theorem analyzePost_frame (tr : TestResults) (ck : String) (now : ℤ)
    (r : CachedVal × ServiceState) :
    (analyzePost tr ck now r).2.requestCount = r.2.requestCount ∧
    (analyzePost tr ck now r).2.maxRequestsPerTest = r.2.maxRequestsPerTest ∧
    (analyzePost tr ck now r).2.httpCalls = r.2.httpCalls ∧
    (analyzePost tr ck now r).2.cacheHits = r.2.cacheHits ∧
    (analyzePost tr ck now r).2.cacheMisses = r.2.cacheMisses := by
  rcases r with ⟨v, t⟩
  cases v with
  | obj j => exact ⟨rfl, rfl, rfl, rfl, rfl⟩
  | str text =>
    simp only [analyzePost]
    cases hjm : jsonMatch text with
    | none => simp [hjm]
    | some matched =>
      simp only [hjm]
      cases hp : jsParse matched <;> simp [hp]

/-- Likewise for the network path of the combined analysis. -/
theorem analyzeMiss_fst_of_cache (s : ServiceState)
    (c2 : List (String × CacheEntry)) (now : ℤ) (outcome : ApiOutcome)
    (tr : TestResults) (ck : String)
    (hc : mapGet c2 (getCacheKey (combinedPrompt tr))
      = mapGet s.cache (getCacheKey (combinedPrompt tr))) :
    (analyzeMiss { s with cache := c2 } now outcome tr ck).1
      = (analyzeMiss s now outcome tr ck).1 := by
  unfold analyzeMiss
  exact analyzePost_fst_congr tr ck now _ _
    (callGeminiAPI_fst_of_cache s c2 now outcome (combinedPrompt tr) hc)

/-- How one `callGeminiAPI` moves `requestCount`: unchanged, or incremented
by one after the pre-call quota check passed. -/
theorem callGeminiAPI_requestCount (s : ServiceState) (now : ℤ)
    (outcome : ApiOutcome) (p : String) :
    (callGeminiAPI s now outcome p).2.maxRequestsPerTest = s.maxRequestsPerTest ∧
    ((callGeminiAPI s now outcome p).2.requestCount = s.requestCount ∨
      ((callGeminiAPI s now outcome p).2.requestCount = s.requestCount + 1 ∧
        s.requestCount < s.maxRequestsPerTest)) := by
  unfold callGeminiAPI
  by_cases hq : s.requestCount ≥ s.maxRequestsPerTest
  · simp only [hq, if_true, ge_iff_le]
    exact ⟨(getCachedResponse_frame s now p).2.1,
      Or.inl (getCachedResponse_frame s now p).1⟩
  · have hlt : s.requestCount < s.maxRequestsPerTest := Nat.lt_of_not_le hq
    simp only [hq, if_false, ge_iff_le]
    cases outcome with
    | throw => exact ⟨rfl, Or.inl rfl⟩
    | resp status text =>
      by_cases hs : status ≠ 200
      · simp [hs, hlt]
      · simp only [hs, if_false]
        cases text <;> simp [hlt]

/-- Likewise through `analyzeMiss`. -/
theorem analyzeMiss_requestCount (s : ServiceState) (now : ℤ)
    (outcome : ApiOutcome) (tr : TestResults) (ck : String) :
    (analyzeMiss s now outcome tr ck).2.maxRequestsPerTest = s.maxRequestsPerTest ∧
    ((analyzeMiss s now outcome tr ck).2.requestCount = s.requestCount ∨
      ((analyzeMiss s now outcome tr ck).2.requestCount = s.requestCount + 1 ∧
        s.requestCount < s.maxRequestsPerTest)) := by
  have hcall := callGeminiAPI_requestCount s now outcome (combinedPrompt tr)
  have hframe := analyzePost_frame tr ck now (callGeminiAPI s now outcome (combinedPrompt tr))
  unfold analyzeMiss
  rw [hframe.1, hframe.2.1]
  exact hcall

/-- Likewise through the full combined analysis call. -/
theorem analyze_requestCount (s : ServiceState) (now : ℤ)
    (outcome : ApiOutcome) (tr : TestResults) :
    (analyzePerformanceWithRecommendations s now outcome tr).2.maxRequestsPerTest
      = s.maxRequestsPerTest ∧
    ((analyzePerformanceWithRecommendations s now outcome tr).2.requestCount
        = s.requestCount ∨
      ((analyzePerformanceWithRecommendations s now outcome tr).2.requestCount
          = s.requestCount + 1 ∧
        s.requestCount < s.maxRequestsPerTest)) := by
  unfold analyzePerformanceWithRecommendations
  cases hm : mapGet s.cache ("combined_" ++ stringifyTestResults tr) with
  | none =>
    simp only [hm]
    exact analyzeMiss_requestCount s now outcome tr _
  | some cached =>
    by_cases hf : now - cached.timestamp < cached.ttl
    · simp [hm, hf]
    · simp only [hm, hf, if_false]
      exact analyzeMiss_requestCount s now outcome tr _

/-- One operation keeps the quota cap and moves `requestCount` to zero, keeps
it, or increments it by one after the pre-call check passed. -/
theorem step_quota (s : ServiceState) (op : Op) :
    (step s op).maxRequestsPerTest = s.maxRequestsPerTest ∧
    ((step s op).requestCount = 0 ∨ (step s op).requestCount = s.requestCount ∨
      ((step s op).requestCount = s.requestCount + 1 ∧
        s.requestCount < s.maxRequestsPerTest)) := by
  cases op with
  | call now outcome prompt =>
    have h := callGeminiAPI_requestCount s now outcome prompt
    exact ⟨h.1, Or.inr h.2⟩
  | analyze now outcome tr =>
    have h := analyze_requestCount s now outcome tr
    exact ⟨h.1, Or.inr h.2⟩
  | stats => exact ⟨rfl, Or.inr (Or.inl rfl)⟩
  | reset => exact ⟨rfl, Or.inl rfl⟩

/-- Behavior of `callGeminiAPI` when `http.post` throws (quota available): fallback
value, only the ghost call counter moves. -/
theorem callGeminiAPI_result_throw (s : ServiceState) (now : ℤ) (p : String)
    (hq : s.requestCount < s.maxRequestsPerTest) :
    callGeminiAPI s now ApiOutcome.throw p
      = (CachedVal.str (getFallbackResponse p),
         { s with httpCalls := s.httpCalls + 1 }) := by
  unfold callGeminiAPI
  rw [if_neg (by omega)]

/-- Behavior of `callGeminiAPI` on a non-200 response (quota available): fallback value,
`requestCount` already incremented, no cache write. -/
theorem callGeminiAPI_result_non200 (s : ServiceState) (now : ℤ) (status : ℤ)
    (text : Option String) (p : String)
    (hq : s.requestCount < s.maxRequestsPerTest) (hs : status ≠ 200) :
    callGeminiAPI s now (ApiOutcome.resp status text) p
      = (CachedVal.str (getFallbackResponse p),
         { s with httpCalls := s.httpCalls + 1,
                  requestCount := s.requestCount + 1 }) := by
  unfold callGeminiAPI
  rw [if_neg (by omega)]
  simp [hs]

/-- Behavior of `callGeminiAPI` on a 200 response whose envelope parse threw. -/
theorem callGeminiAPI_result_envelope_fail (s : ServiceState) (now : ℤ) (p : String)
    (hq : s.requestCount < s.maxRequestsPerTest) :
    callGeminiAPI s now (ApiOutcome.resp 200 none) p
      = (CachedVal.str (getFallbackResponse p),
         { s with httpCalls := s.httpCalls + 1,
                  requestCount := s.requestCount + 1 }) := by
  unfold callGeminiAPI
  rw [if_neg (by omega)]
  simp

/-- Behavior of `callGeminiAPI` on a successful 200 response: the extracted text is
returned and cached under the prompt's key. -/
theorem callGeminiAPI_result_ok (s : ServiceState) (now : ℤ) (text : String)
    (p : String) (hq : s.requestCount < s.maxRequestsPerTest) :
    callGeminiAPI s now (ApiOutcome.resp 200 (some text)) p
      = (CachedVal.str text,
         { s with httpCalls := s.httpCalls + 1,
                  requestCount := s.requestCount + 1,
                  cache := mapSet s.cache (getCacheKey p)
                    { result := CachedVal.str text, timestamp := now,
                      ttl := 1800000 } }) := by
  unfold callGeminiAPI
  rw [if_neg (by omega)]
  simp

/-- Post-processing the static threshold fallback string: its JSON is
extracted, parsed and cached. -/
theorem analyzePost_fallback (tr : TestResults) (ck : String) (now : ℤ)
    (s2 : ServiceState) :
    analyzePost tr ck now (CachedVal.str fallbackThresholdString, s2)
      = (CachedVal.obj fallbackThresholdJson,
         { s2 with cache := mapSet s2.cache ck
                     { result := CachedVal.obj fallbackThresholdJson,
                       timestamp := now, ttl := 1800000 } }) := by
  simp only [analyzePost, jsonMatch_fallbackString, jsParse_fallbackString]

/-- Rounding via `Math.round` moves a rational by at most a half. -/
theorem abs_jsRound_sub_le (q : ℚ) : |(jsRound q : ℚ) - q| ≤ 1 / 2 := by
  unfold jsRound
  have h1 : (⌊q + 1 / 2⌋ : ℚ) ≤ q + 1 / 2 := Int.floor_le _
  have h2 : q + 1 / 2 - 1 < (⌊q + 1 / 2⌋ : ℚ) := Int.sub_one_lt_floor _
  rw [abs_le]
  constructor <;> linarith

/-- The quota invariant survives any operation sequence. -/
theorem runOps_quota (s : ServiceState) (ops : List Op)
    (h : s.requestCount ≤ s.maxRequestsPerTest) :
    (runOps s ops).requestCount ≤ (runOps s ops).maxRequestsPerTest ∧
    (runOps s ops).maxRequestsPerTest = s.maxRequestsPerTest := by
  induction ops generalizing s with
  | nil => exact ⟨h, rfl⟩
  | cons op rest ih =>
    have hs := step_quota s op
    have hinv : (step s op).requestCount ≤ (step s op).maxRequestsPerTest := by
      rcases hs.2 with h0 | h0 | ⟨h0, hlt⟩ <;> rw [h0, hs.1] <;> omega
    have hrun : runOps s (op :: rest) = runOps (step s op) rest := rfl
    rw [hrun]
    exact ⟨(ih (step s op) hinv).1, ((ih (step s op) hinv).2).trans hs.1⟩

/-! ## Claim theorems -/

/-- Claim C1 (code_bug): with `cacheHits = cacheMisses = 0` the division in
`getUsageStats` is `0 / 0`, which is JS `NaN` (`none` in this model), not the
number `0` the spec promises: the code has no divide-by-zero guard. -/
theorem claim1_cacheHitRate_is_nan_without_lookups (s : ServiceState)
    (h1 : s.cacheHits = 0) (h2 : s.cacheMisses = 0) :
    (getUsageStats s).cacheHitRate = none := by
  simp [getUsageStats, jsDiv, h1, h2]

/-- Witness for C1: a freshly constructed instance. -/
theorem claim1_witness : (getUsageStats s0).cacheHitRate = none :=
  claim1_cacheHitRate_is_nan_without_lookups s0 rfl rfl

/-- Claim C5 (confirmed): construction fails exactly when the credential is
missing (empty) or shorter than 10 characters, and succeeds exactly when it
has 10 or more. -/
theorem claim5_constructor_validation (apiKey model : String) :
    ((construct apiKey model).isOk = false ↔ apiKey.length < 10) ∧
    ((construct apiKey model).isOk = true ↔ 10 ≤ apiKey.length) := by
  by_cases hlt : apiKey.length < 10
  · have hcond : (decide (apiKey = "") || decide (apiKey.length < 10)) = true := by
      simp [hlt]
    simp only [construct, hcond, if_true]
    simp [Except.isOk, Except.toBool]
    omega
  · have hne : apiKey ≠ "" := fun hh => hlt (by rw [hh]; decide)
    have hcond : (decide (apiKey = "") || decide (apiKey.length < 10)) = false := by
      simp [hne, hlt]
    simp only [construct, hcond, Bool.false_eq_true, if_false]
    simp [Except.isOk, Except.toBool]
    omega

/-- Claim C7 (confirmed): `resetCounters` zeroes the three counters, leaves
the cache untouched, and any entry that was a fresh hit is still served as a
hit (the hit counter moves from 0 to 1) with the same value afterwards. -/
theorem claim7_resetCounters_frame (s : ServiceState) (now : ℤ) (prompt : String) :
    (resetCounters s).requestCount = 0 ∧
    (resetCounters s).cacheHits = 0 ∧
    (resetCounters s).cacheMisses = 0 ∧
    (resetCounters s).cache = s.cache ∧
    (∀ e, mapGet s.cache (getCacheKey prompt) = some e → now - e.timestamp < e.ttl →
      (getCachedResponse s now prompt).1 = e.result ∧
      (getCachedResponse (resetCounters s) now prompt).1 = e.result ∧
      (getCachedResponse (resetCounters s) now prompt).2.cacheHits = 1) := by
  refine ⟨rfl, rfl, rfl, rfl, ?_⟩
  intro e he hf
  refine ⟨?_, ?_, ?_⟩ <;> simp [getCachedResponse, resetCounters, he, hf]

/-- Witness for C7: a concrete instance with one fresh cache entry. -/
theorem claim7_witness :
    (getCachedResponse (resetCounters sCached) 5 promptEx).1
      = CachedVal.str "cached analysis text" ∧
    (getCachedResponse (resetCounters sCached) 5 promptEx).2.cacheHits = 1 := by
  have h := (claim7_resetCounters_frame sCached 5 promptEx).2.2.2.2 entryEx
    (by decide) (by decide)
  exact ⟨h.2.1, h.2.2⟩

/-- Claim C9 (confirmed): the cache key is a function of the coarse category
(`threshold` containment) and the first 10 space-separated words only, so any
two prompts agreeing on those collide. -/
theorem claim9_cache_key_collision (p1 p2 : String)
    (ht : jsIncludes p1 "threshold" = jsIncludes p2 "threshold")
    (hw : (jsSplitSpace p1).take 10 = (jsSplitSpace p2).take 10) :
    getCacheKey p1 = getCacheKey p2 := by
  simp only [getCacheKey]
  rw [ht, hw]

/-- Witness for C9: two distinct prompts with the same first 10 words (and no
`threshold`) produce the same cache key. -/
theorem claim9_witness :
    ("w1 w2 w3 w4 w5 w6 w7 w8 w9 w10 analyze latency" : String)
        ≠ "w1 w2 w3 w4 w5 w6 w7 w8 w9 w10 different tail here" ∧
    getCacheKey "w1 w2 w3 w4 w5 w6 w7 w8 w9 w10 analyze latency"
      = getCacheKey "w1 w2 w3 w4 w5 w6 w7 w8 w9 w10 different tail here" :=
  ⟨by decide, claim9_cache_key_collision _ _ (by decide) (by decide)⟩

/-- Claim C2 (confirmed): once `requestCount` has reached the per-test cap,
`callGeminiAPI` collapses to `getCachedResponse`: no `http.post` happens
(the ghost call counter is unchanged and the outcome oracle is irrelevant),
`requestCount` is not incremented, a fresh cache entry for the prompt's key
is served, and otherwise the static fallback is returned. -/
theorem claim2_quota_exhausted_uses_cache_only (s : ServiceState) (now : ℤ)
    (outcome : ApiOutcome) (prompt : String)
    (h : s.requestCount ≥ s.maxRequestsPerTest) :
    callGeminiAPI s now outcome prompt = getCachedResponse s now prompt ∧
    (callGeminiAPI s now outcome prompt).2.httpCalls = s.httpCalls ∧
    (callGeminiAPI s now outcome prompt).2.requestCount = s.requestCount ∧
    (∀ e, mapGet s.cache (getCacheKey prompt) = some e → now - e.timestamp < e.ttl →
      (callGeminiAPI s now outcome prompt).1 = e.result) ∧
    ((∀ e, mapGet s.cache (getCacheKey prompt) = some e → ¬ now - e.timestamp < e.ttl) →
      (callGeminiAPI s now outcome prompt).1
        = CachedVal.str (getFallbackResponse prompt)) := by
  have hcall : callGeminiAPI s now outcome prompt = getCachedResponse s now prompt := by
    unfold callGeminiAPI
    rw [if_pos h]
  refine ⟨hcall, ?_, ?_, ?_, ?_⟩
  · rw [hcall]
    exact (getCachedResponse_frame s now prompt).2.2.1
  · rw [hcall]
    exact (getCachedResponse_frame s now prompt).1
  · intro e he hf
    rw [hcall]
    simp [getCachedResponse, he, hf]
  · intro hall
    rw [hcall]
    unfold getCachedResponse
    cases hg : mapGet s.cache (getCacheKey prompt) with
    | none => simp
    | some e => simp [hall e hg]

/-- Witness for C2: with the quota exhausted, a live-looking outcome is
ignored both on an empty cache (static fallback) and on a fresh entry
(cached value served). -/
theorem claim2_witness :
    (callGeminiAPI s3 0 (ApiOutcome.resp 200 (some "live answer")) "check latency now"
      = getCachedResponse s3 0 "check latency now") ∧
    (callGeminiAPI s3 0 (ApiOutcome.resp 200 (some "live answer")) "check latency now").2.httpCalls
      = s3.httpCalls ∧
    (callGeminiAPI s3 0 (ApiOutcome.resp 200 (some "live answer")) "check latency now").1
      = CachedVal.str (getFallbackResponse "check latency now") ∧
    (callGeminiAPI sCachedQuota 5 ApiOutcome.throw promptEx).1 = entryEx.result := by
  have h1 := claim2_quota_exhausted_uses_cache_only s3 0
    (ApiOutcome.resp 200 (some "live answer")) "check latency now" (by decide)
  have h2 := claim2_quota_exhausted_uses_cache_only sCachedQuota 5 ApiOutcome.throw
    promptEx (by decide)
  refine ⟨h1.1, h1.2.1, ?_, ?_⟩
  · exact h1.2.2.2.2 (fun e he => by simp [s3, s0, mapGet] at he)
  · exact h2.2.2.2.1 entryEx (by decide) (by decide)

/-- Claim C6 (confirmed): a cache entry is served as a hit exactly when
`now - timestamp < ttl`; an expired entry behaves like an absent one — the
read produces the fallback (plus a miss count) in `getCachedResponse`, and
the combined analysis proceeds to the network path, its result agreeing with
the run on a cache without the entry. -/
theorem claim6_ttl_validity (s : ServiceState) (now : ℤ) (prompt : String)
    (e : CacheEntry) (he : mapGet s.cache (getCacheKey prompt) = some e) :
    ((getCachedResponse s now prompt).2.cacheHits = s.cacheHits + 1
      ↔ now - e.timestamp < e.ttl) ∧
    (now - e.timestamp < e.ttl → (getCachedResponse s now prompt).1 = e.result) ∧
    (¬ now - e.timestamp < e.ttl →
      (getCachedResponse s now prompt).1 = CachedVal.str (getFallbackResponse prompt) ∧
      (getCachedResponse s now prompt).1
        = (getCachedResponse
            { s with cache := mapRemove s.cache (getCacheKey prompt) } now prompt).1 ∧
      (getCachedResponse s now prompt).2.cacheMisses = s.cacheMisses + 1) ∧
    (∀ outcome tr e2,
      mapGet s.cache ("combined_" ++ stringifyTestResults tr) = some e2 →
      ¬ now - e2.timestamp < e2.ttl →
      analyzePerformanceWithRecommendations s now outcome tr
        = analyzeMiss s now outcome tr ("combined_" ++ stringifyTestResults tr) ∧
      (analyzePerformanceWithRecommendations s now outcome tr).1
        = (analyzePerformanceWithRecommendations
            { s with cache := mapRemove s.cache ("combined_" ++ stringifyTestResults tr) }
            now outcome tr).1) := by
  refine ⟨?_, ?_, ?_, ?_⟩
  · constructor
    · intro hh
      by_contra hf
      have : (getCachedResponse s now prompt).2.cacheHits = s.cacheHits := by
        simp [getCachedResponse, he, hf]
      omega
    · intro hf
      simp [getCachedResponse, he, hf]
  · intro hf
    simp [getCachedResponse, he, hf]
  · intro hf
    refine ⟨by simp [getCachedResponse, he, hf], ?_, by simp [getCachedResponse, he, hf]⟩
    have habs : mapGet (mapRemove s.cache (getCacheKey prompt)) (getCacheKey prompt)
        = none := mapGet_mapRemove_self s.cache (getCacheKey prompt)
    simp [getCachedResponse, he, hf, habs]
  · intro outcome tr e2 he2 hf2
    have hmiss : analyzePerformanceWithRecommendations s now outcome tr
        = analyzeMiss s now outcome tr ("combined_" ++ stringifyTestResults tr) := by
      unfold analyzePerformanceWithRecommendations
      simp only [he2, hf2, if_false]
    refine ⟨hmiss, ?_⟩
    have habs : mapGet (mapRemove s.cache ("combined_" ++ stringifyTestResults tr))
        ("combined_" ++ stringifyTestResults tr) = none :=
      mapGet_mapRemove_self s.cache _
    have hmiss2 : analyzePerformanceWithRecommendations
        { s with cache := mapRemove s.cache ("combined_" ++ stringifyTestResults tr) }
        now outcome tr
        = analyzeMiss
            { s with cache := mapRemove s.cache ("combined_" ++ stringifyTestResults tr) }
            now outcome tr ("combined_" ++ stringifyTestResults tr) := by
      unfold analyzePerformanceWithRecommendations
      simp only [habs]
    rw [hmiss, hmiss2]
    exact (analyzeMiss_fst_of_cache s _ now outcome tr _
      (mapGet_mapRemove_ne s.cache _ _ (combined_key_ne_prompt_key tr _))).symm

/-- Witness for C6: the entry of `sCached` (created at time 0, TTL 30 min)
is a hit at time 5 and behaves as absent at time 1800000. -/
theorem claim6_witness :
    (getCachedResponse sCached 5 promptEx).1 = entryEx.result ∧
    (getCachedResponse sCached 1800000 promptEx).1
      = CachedVal.str (getFallbackResponse promptEx) ∧
    (getCachedResponse sCached 1800000 promptEx).2.cacheMisses = 1 := by
  have hfresh := claim6_ttl_validity sCached 5 promptEx entryEx (by decide)
  have hstale := claim6_ttl_validity sCached 1800000 promptEx entryEx (by decide)
  refine ⟨hfresh.2.1 (by decide), ?_, ?_⟩
  · exact (hstale.2.2.1 (by decide)).1
  · exact (hstale.2.2.1 (by decide)).2.2

/-- Claim C10 (confirmed): from any constructed instance, no operation
sequence pushes `requestCount` past the cap of 3, `requestsRemaining` never
goes negative, and any step that increases `requestCount` increments it by
exactly one having passed the `requestCount < maxRequestsPerTest` check. -/
theorem claim10_request_quota_invariant (apiKey model : String) (s : ServiceState)
    (h : construct apiKey model = Except.ok s) (ops : List Op) :
    (runOps s ops).requestCount ≤ (runOps s ops).maxRequestsPerTest ∧
    (runOps s ops).maxRequestsPerTest = 3 ∧
    0 ≤ (getUsageStats (runOps s ops)).requestsRemaining ∧
    (∀ s2 op, s2.requestCount < (step s2 op).requestCount →
      s2.requestCount < s2.maxRequestsPerTest ∧
      (step s2 op).requestCount = s2.requestCount + 1) := by
  have hs : s.requestCount = 0 ∧ s.maxRequestsPerTest = 3 := by
    unfold construct at h
    by_cases hcond : (decide (apiKey = "") || decide (apiKey.length < 10)) = true
    · rw [if_pos hcond] at h
      cases h
    · rw [if_neg hcond] at h
      cases h
      exact ⟨rfl, rfl⟩
  have hrun := runOps_quota s ops (by omega)
  refine ⟨hrun.1, hrun.2.trans hs.2, ?_, ?_⟩
  · have := hrun.1
    have := hrun.2
    simp only [getUsageStats]
    omega
  · intro s2 op hlt
    rcases (step_quota s2 op).2 with h0 | h0 | ⟨h0, hq⟩
    · omega
    · omega
    · exact ⟨hq, h0⟩

/-- Witness for C10: five consecutive live-call attempts on a fresh instance
leave `requestCount` at the cap and a nonnegative remaining count. -/
theorem claim10_witness :
    (runOps s0 opsEx).requestCount ≤ (runOps s0 opsEx).maxRequestsPerTest ∧
    0 ≤ (getUsageStats (runOps s0 opsEx)).requestsRemaining ∧
    (runOps s0 opsEx).requestCount = 3 := by
  have h := claim10_request_quota_invariant "GEMINI-KEY-1234" "gemini-pro" s0
    (by rfl) opsEx
  exact ⟨h.1, h.2.2.1, by decide⟩

unseal Rat.add Rat.mul Rat.inv Rat.sub in
/-- Counterexample to claim C3: on a non-200 transport response the combined
analysis does not return the aggregate-scaled fallback.  The combined prompt
contains the word `threshold`, so `getFallbackResponse` yields the static
threshold JSON string, which is then regex-matched and parsed: the caller
receives the fixed `p(95)<500` / `p(99)<1000` thresholds, not the
`responseTime * 2` / `responseTime * 3` scaling of `getFallbackAnalysis`
(which for the spec's example would be `p(95)<1000` / `p(99)<1500`). -/
theorem claim3_counterexample :
    (analyzePerformanceWithRecommendations s0 0 (ApiOutcome.resp 500 none) trDeg).1
      = CachedVal.obj fallbackThresholdJson ∧
    durThresholds fallbackThresholdJson = some ["p(95)<500", "p(99)<1000"] ∧
    durThresholds (getFallbackAnalysis trDeg) = some ["p(95)<1000", "p(99)<1500"] ∧
    CachedVal.obj fallbackThresholdJson ≠ CachedVal.obj (getFallbackAnalysis trDeg) :=
  ⟨by decide, by decide, by decide, by decide⟩

/-- Claim C3 as amended: with quota available and no cached combined result,
every transport-level failure (thrown `http.post`, non-200 status, or a 200
whose envelope parse threw) yields the parsed static default-threshold
object; the aggregate-scaled `getFallbackAnalysis` object is returned
exactly when the transport succeeded but the reply text contains no
parseable JSON.  Every path returns a value (the embedded operation is
total): nothing escapes to the caller. -/
theorem claim3_amended_fallback_paths (s : ServiceState) (now : ℤ)
    (tr : TestResults)
    (hq : s.requestCount < s.maxRequestsPerTest)
    (hm : mapGet s.cache ("combined_" ++ stringifyTestResults tr) = none) :
    ((analyzePerformanceWithRecommendations s now ApiOutcome.throw tr).1
      = CachedVal.obj fallbackThresholdJson) ∧
    (∀ status text, status ≠ 200 →
      (analyzePerformanceWithRecommendations s now (ApiOutcome.resp status text) tr).1
        = CachedVal.obj fallbackThresholdJson) ∧
    ((analyzePerformanceWithRecommendations s now (ApiOutcome.resp 200 none) tr).1
      = CachedVal.obj fallbackThresholdJson) ∧
    (∀ text, jsonMatch text = none →
      (analyzePerformanceWithRecommendations s now (ApiOutcome.resp 200 (some text)) tr).1
        = CachedVal.obj (getFallbackAnalysis tr)) ∧
    (∀ text matched, jsonMatch text = some matched → jsParse matched = none →
      (analyzePerformanceWithRecommendations s now (ApiOutcome.resp 200 (some text)) tr).1
        = CachedVal.obj (getFallbackAnalysis tr)) := by
  have hMiss : ∀ o, analyzePerformanceWithRecommendations s now o tr
      = analyzeMiss s now o tr ("combined_" ++ stringifyTestResults tr) := by
    intro o
    unfold analyzePerformanceWithRecommendations
    simp only [hm]
  refine ⟨?_, ?_, ?_, ?_, ?_⟩
  · rw [hMiss, analyzeMiss, callGeminiAPI_result_throw s now (combinedPrompt tr) hq,
      getFallbackResponse_combined, analyzePost_fallback]
  · intro status text hs
    rw [hMiss, analyzeMiss,
      callGeminiAPI_result_non200 s now status text (combinedPrompt tr) hq hs,
      getFallbackResponse_combined, analyzePost_fallback]
  · rw [hMiss, analyzeMiss, callGeminiAPI_result_envelope_fail s now (combinedPrompt tr) hq,
      getFallbackResponse_combined, analyzePost_fallback]
  · intro text hjm
    rw [hMiss, analyzeMiss, callGeminiAPI_result_ok s now text (combinedPrompt tr) hq]
    simp [analyzePost, hjm]
  · intro text matched hjm hp
    rw [hMiss, analyzeMiss, callGeminiAPI_result_ok s now text (combinedPrompt tr) hq]
    simp [analyzePost, hjm, hp]

unseal Rat.add Rat.mul Rat.inv Rat.sub in
/-- Witness for the amended C3: a 503 yields the static object, a 200 with a
brace-free body yields the aggregate-scaled object. -/
theorem claim3_witness :
    (analyzePerformanceWithRecommendations s0 0 (ApiOutcome.resp 503 (some "oops")) trDeg).1
      = CachedVal.obj fallbackThresholdJson ∧
    (analyzePerformanceWithRecommendations s0 0
        (ApiOutcome.resp 200 (some "all good, no json")) trDeg).1
      = CachedVal.obj (getFallbackAnalysis trDeg) := by
  have h := claim3_amended_fallback_paths s0 0 trDeg (by decide) (by decide)
  exact ⟨h.2.1 503 (some "oops") (by decide),
    h.2.2.2.1 "all good, no json" (by decide)⟩

unseal Rat.add Rat.mul Rat.inv Rat.sub in
/-- Counterexample to claim C4: the non-200 result of the combined-analysis
variant matches the raw-call fallback schema (`thresholds`/`reasoning`), not
the combined schema — it has no `summary` or `recommendations` field. -/
theorem claim4_counterexample :
    (analyzePerformanceWithRecommendations s0 1
        (ApiOutcome.resp 502 (some "Bad Gateway")) trDeg).1
      = CachedVal.obj fallbackThresholdJson ∧
    Json.hasField fallbackThresholdJson "summary" = false ∧
    Json.hasField fallbackThresholdJson "recommendations" = false ∧
    Json.hasField fallbackThresholdJson "thresholds" = true ∧
    Json.hasField fallbackThresholdJson "reasoning" = true :=
  ⟨by decide, by decide, by decide, by decide, by decide⟩

/-- Claim C4 as amended: on every non-200 transport response (quota
available, no cached combined result) nothing escapes to the caller (the
embedded operations are total): the raw call variant returns the fallback
string — the `thresholds`/`reasoning` JSON when the prompt mentions
`threshold`, else the fixed advisory message — and the combined variant
returns the parsed static object with `thresholds` and `reasoning` fields. -/
theorem claim4_amended_non200_schema (s : ServiceState) (now : ℤ) (status : ℤ)
    (text : Option String) (prompt : String) (tr : TestResults)
    (hq : s.requestCount < s.maxRequestsPerTest) (hs : status ≠ 200)
    (hm : mapGet s.cache ("combined_" ++ stringifyTestResults tr) = none) :
    (callGeminiAPI s now (ApiOutcome.resp status text) prompt).1
      = CachedVal.str (getFallbackResponse prompt) ∧
    (jsIncludes prompt "threshold" = true →
      getFallbackResponse prompt = fallbackThresholdString) ∧
    (jsIncludes prompt "threshold" = false →
      getFallbackResponse prompt
        = "Performance analysis unavailable - review results manually. Check error rates and response times.") ∧
    jsParse fallbackThresholdString = some fallbackThresholdJson ∧
    Json.hasField fallbackThresholdJson "thresholds" = true ∧
    Json.hasField fallbackThresholdJson "reasoning" = true ∧
    (analyzePerformanceWithRecommendations s now (ApiOutcome.resp status text) tr).1
      = CachedVal.obj fallbackThresholdJson := by
  refine ⟨?_, ?_, ?_, jsParse_fallbackString, by decide, by decide, ?_⟩
  · rw [callGeminiAPI_result_non200 s now status text prompt hq hs]
  · intro ht
    simp [getFallbackResponse, ht]
  · intro ht
    simp [getFallbackResponse, ht]
  · have hMiss : analyzePerformanceWithRecommendations s now (ApiOutcome.resp status text) tr
        = analyzeMiss s now (ApiOutcome.resp status text) tr
            ("combined_" ++ stringifyTestResults tr) := by
      unfold analyzePerformanceWithRecommendations
      simp only [hm]
    rw [hMiss, analyzeMiss,
      callGeminiAPI_result_non200 s now status text (combinedPrompt tr) hq hs,
      getFallbackResponse_combined, analyzePost_fallback]

unseal Rat.add Rat.mul Rat.inv Rat.sub in
/-- Witness for the amended C4: a concrete 404 on both call variants. -/
theorem claim4_witness :
    (callGeminiAPI s0 2 (ApiOutcome.resp 404 (some "nope")) promptEx).1
      = CachedVal.str (getFallbackResponse promptEx) ∧
    getFallbackResponse promptEx
      = "Performance analysis unavailable - review results manually. Check error rates and response times." ∧
    (analyzePerformanceWithRecommendations s0 2 (ApiOutcome.resp 404 (some "nope")) trDeg).1
      = CachedVal.obj fallbackThresholdJson := by
  have h := claim4_amended_non200_schema s0 2 404 (some "nope") promptEx trDeg
    (by decide) (by decide) (by decide)
  exact ⟨h.1, h.2.2.1 (by decide), h.2.2.2.2.2.2⟩

unseal Rat.add Rat.mul Rat.inv Rat.sub in
/-- Counterexample to claim C8: `PerformanceMonitor.getSummary` reports the
error percentage rounded to two decimals, so for 1 error in 3 requests it
returns `33.33`, not the exact fraction `1/3` (i.e. `100/3` percent). -/
theorem claim8_counterexample :
    (getSummary monEx).errorRate = 3333 / 100 ∧
    (getSummary monEx).errorRate
      ≠ (monEx.errors.length : ℚ) / (monEx.requests.length : ℚ) * 100 ∧
    (monEx.errors.length : ℚ) / (monEx.requests.length : ℚ) = 1 / 3 :=
  ⟨by decide, by decide, by decide⟩

/-- Claim C8 as amended: the error rate computed in `runOptimizedAIAnalysis`
is the exact fraction `count(status >= 400) / count(total)` for every
non-empty batch; `getSummary`'s error percentage is that exact percentage
rounded to two decimals (within `1/200` of it), exact only when the
percentage itself has at most two decimals — as in the spec's one-error-in-
two example. -/
theorem claim8_amended_error_rate (ms : List AIMetric) (m : MonitorState)
    (h1 : ms ≠ []) (h2 : ¬ m.requests.length = 0) :
    aggErrorRate ms = some ((metricErrorCount ms : ℚ) / (ms.length : ℚ)) ∧
    |(getSummary m).errorRate
        - (m.errors.length : ℚ) / (m.requests.length : ℚ) * 100| ≤ 1 / 200 := by
  constructor
  · have hlen : ¬ ((ms.length : ℚ) = 0) := by
      simp only [Nat.cast_eq_zero, List.length_eq_zero]
      exact h1
    simp [aggErrorRate, jsDiv, hlen]
  · unfold getSummary
    rw [if_neg h2]
    have hb := abs_jsRound_sub_le
      ((m.errors.length : ℚ) / (m.requests.length : ℚ) * 100 * 100)
    rw [abs_le] at hb ⊢
    constructor <;> · simp only; linarith [hb.1, hb.2]

unseal Rat.add Rat.mul Rat.inv Rat.sub in
/-- Witness for the amended C8: one error in two samples gives exactly `1/2`,
reported as exactly 50 percent; the three-sample monitor stays within the
rounding bound. -/
theorem claim8_witness :
    aggErrorRate metricsEx
      = some ((metricErrorCount metricsEx : ℚ) / (metricsEx.length : ℚ)) ∧
    (metricErrorCount metricsEx : ℚ) / (metricsEx.length : ℚ) = 1 / 2 ∧
    (aggTestResults metricsEx).errorRate = some 50 ∧
    |(getSummary monEx).errorRate
        - (monEx.errors.length : ℚ) / (monEx.requests.length : ℚ) * 100| ≤ 1 / 200 := by
  have h := claim8_amended_error_rate metricsEx monEx (by decide) (by decide)
  exact ⟨h.1, by decide, by decide, h.2⟩

end K6AI
